import Mathlib

/-!
Verification of the rosbridge multi-robot web server (`rom_go_app`).

This file gives a shallow embedding, in Lean 4, of the parts of the Go
source that the specification's claims are about:

* `rosbridge/client.go` — the rosbridge protocol client: the pending
  service-call table (`svcPending`), `CallService`, the command-publish
  tick (`publishCmdVelTick` / `SetDesiredCmdVel`), the TF parser
  (`parseTF`) and the occupancy-grid parser (`parseMap`).
* `robot/manager.go` — the fleet registry (`AddRobot`, `RemoveRobot`,
  `SwitchRobot`, `GetCurrentRobot`) and the broadcast hub
  (`Subscribe`, `Unsubscribe`, `Broadcast`).
* `handlers/ws_handler.go` — the per-browser outbound pump with its
  map-event throttle.

Modelling conventions:
* Go maps keyed by strings become association lists `List (String × β)`
  (or plain key lists when only the key set matters); `delete` is
  `List.filter`, insertion overwrites like Go's `m[k] = v`.
* `float64` fields that the verified code only ever copies and compares
  for exact equality (twists, transforms, map metadata) are modelled by
  `Rat`: exact equality on floats is exact equality on the carried
  values, and none of the verified code paths do float arithmetic on
  them.  The one transcendental (`math.Atan2` in the TF yaw) is taken
  as an explicit function parameter.
* Channel sends with `select`/`default` (the hub's drop-on-full) become
  a conditional enqueue on a bounded queue; `close` of a channel is
  tracked so that Go's "close of closed channel" panic is visible as
  `Option.none`.
* Goroutine interleavings relevant to the pending-call table are
  modelled by an explicit event trace together with a `Merge`
  (interleaving) relation.
-/

namespace RomApp

/-! ## Broadcast hub (`robot/manager.go`: `Subscribe`, `Unsubscribe`, `Broadcast`)

`Manager.Subscribe` creates a buffered channel of capacity 100 and
registers it; `Manager.Broadcast` does a `select`/`default` send to every
registered channel, dropping the message for any channel whose buffer is
full.  A buffered Go channel is modelled as a bounded queue: capacity
plus current buffer. -/

/-- A `BroadcastMsg` as in `manager.go`: event type, robot id, payload.
The payload (`Data interface{}` in Go) is a type parameter. -/
structure BroadcastMsg (α : Type) where
  type : String
  robotId : String
  data : α
deriving DecidableEq

/-- A subscriber queue: one buffered Go channel (capacity + buffered
elements, oldest first). -/
structure SubQueue (α : Type) where
  cap : Nat
  buf : List α
deriving DecidableEq

/-- `Manager.Subscribe` creates a fresh empty channel of capacity 100. -/
def subscribeQueue (α : Type) : SubQueue α := ⟨100, []⟩

/-- One `select { case ch <- msg: default: }` send: enqueue if the buffer
has free capacity, otherwise drop the message and leave the queue as is.
The operation is total — it never blocks. -/
def trySend {α : Type} (q : SubQueue α) (m : α) : SubQueue α :=
  if q.buf.length < q.cap then { q with buf := q.buf ++ [m] } else q

/-- `Manager.Broadcast`: a non-blocking `trySend` of the message to every
registered subscriber queue, each queue treated independently. -/
def hubBroadcast {α : Type} (subs : List (SubQueue α)) (m : α) : List (SubQueue α) :=
  subs.map (fun q => trySend q m)

/-! For `Unsubscribe` we track channel identity and closedness: Go panics
on `close` of an already-closed channel.  Channels are named by `Nat`
keys; the hub state keeps the registered set and the closed set. -/

/-- The subscriber bookkeeping of `Manager`: the set of registered
channels, and the set of channels that have already been closed. -/
structure HubState where
  subscribers : List Nat
  closed : List Nat
deriving DecidableEq

/-- `Manager.Unsubscribe(ch)`: `delete(m.subscribers, ch)` followed by an
unconditional `close(ch)`.  In Go, `close` of an already-closed channel
panics; the panic is modelled as `none`. -/
def unsubscribe (h : HubState) (q : Nat) : Option HubState :=
  let h1 : HubState := { h with subscribers := h.subscribers.filter (fun c => c ≠ q) }
  if q ∈ h1.closed then none
  else some { h1 with closed := q :: h1.closed }

/-! ## Occupancy-grid decoding (`rosbridge/client.go`: `parseMap`)

`parseMap` decodes the grid into `Data []int` and converts each cell by
`if v > 127 { v -= 256 }; data[i] = int8(v)`.  Go's `int8(v)` truncates
to the low byte, two's complement. -/

/-- Go's `int8(v)` conversion: two's-complement truncation to 8 bits. -/
def goInt8 (v : Int) : Int := (v + 128) % 256 - 128

/-- One cell of `parseMap`'s data loop:
`if v > 127 { v -= 256 }; data[i] = int8(v)`. -/
def parseMapCell (v : Int) : Int := goInt8 (if v > 127 then v - 256 else v)

/-- The decoded grid message (`grid` struct local to `parseMap`), with
cell values as decoded JSON integers. -/
structure GridMsg where
  width : Int
  height : Int
  resolution : Rat
  originX : Rat
  originY : Rat
  data : List Int
deriving DecidableEq

/-- The `MapData` the parser hands to `OnMap`, cells already converted. -/
structure MapDataR where
  width : Int
  height : Int
  resolution : Rat
  originX : Rat
  originY : Rat
  data : List Int
deriving DecidableEq

/-- `Client.parseMap`, after successful JSON decoding: copy the metadata
and convert every cell with `parseMapCell`. -/
def parseMap (g : GridMsg) : MapDataR :=
  { width := g.width
    height := g.height
    resolution := g.resolution
    originX := g.originX
    originY := g.originY
    data := g.data.map parseMapCell }

/-! ## Command publishing (`rosbridge/client.go`: `SetDesiredCmdVel`,
`SetCmdVelEnabled`, `publishCmdVelTick`)

`TwistData` (rosbridge/types.go) has six `float64` fields; the verified
code only copies them and compares them for exact equality, so they are
carried as `Rat`. -/

/-- `rosbridge.TwistData`: six velocity components. -/
structure TwistData where
  linearX : Rat
  linearY : Rat
  linearZ : Rat
  angularX : Rat
  angularY : Rat
  angularZ : Rat
deriving DecidableEq

/-- The all-zero twist (Go zero value). -/
def zeroTwist : TwistData := ⟨0, 0, 0, 0, 0, 0⟩

/-- The slice of `Client` state that `publishCmdVelTick` reads and
writes: connection flag, enable flag, command topic, desired and
last-sent twists. -/
structure CmdVelState where
  connected : Bool
  cmdVelEnabled : Bool
  topicCmdVel : String
  desiredTwist : TwistData
  lastTwist : TwistData
deriving DecidableEq

/-- `Client.SetDesiredCmdVel`: store the requested twist. -/
def setDesiredCmdVel (c : CmdVelState) (t : TwistData) : CmdVelState :=
  { c with desiredTwist := t }

/-- The wire frame `publishCmdVelTick` sends: a publish on the command
topic whose `msg` carries `linear.x`, `linear.y` (with `linear.z = 0`)
and `angular.z` (with `angular.x = angular.y = 0`) from the desired
twist. -/
structure CmdVelFrame where
  topic : String
  linearX : Rat
  linearY : Rat
  angularZ : Rat
deriving DecidableEq

/-- `Client.publishCmdVelTick`: does nothing when disconnected or
disabled, or when the command topic is unset; otherwise compares the
desired twist to the last-sent twist on the three published fields
(`LinearX`, `AngularZ`, `LinearY`) and, only on a difference, sends one
publish frame and records the desired twist as last sent. -/
def publishCmdVelTick (c : CmdVelState) : CmdVelState × Option CmdVelFrame :=
  if ¬ (c.connected && c.cmdVelEnabled) then (c, none)
  else if c.topicCmdVel = "" then (c, none)
  else if c.desiredTwist.linearX = c.lastTwist.linearX ∧
          c.desiredTwist.angularZ = c.lastTwist.angularZ ∧
          c.desiredTwist.linearY = c.lastTwist.linearY then (c, none)
  else ({ c with lastTwist := c.desiredTwist },
        some ⟨c.topicCmdVel, c.desiredTwist.linearX, c.desiredTwist.linearY,
              c.desiredTwist.angularZ⟩)

/-! ## Pending service calls (`rosbridge/client.go`: `CallService`,
`handleServiceResponse`)

`CallService` builds the correlation id
`fmt.Sprintf("svc_%s_%d", service, time.Now().UnixMilli())`, registers a
buffered channel under it in `svcPending`, sends the call, waits for the
response or the timeout, and in a `defer` deletes the entry on every
exit path.  Only the key set of `svcPending` matters for the claims, so
the table is the list of registered ids; `Register` is a Go map store
(no second entry for an existing key) and `Remove` is `delete`. -/

/-- The correlation id `CallService` builds:
`fmt.Sprintf("svc_%s_%d", service, millis)`. -/
def svcCallId (service : String) (millis : Nat) : String :=
  "svc_" ++ service ++ "_" ++ Nat.repr millis

/-- Register an id in the pending table (`c.svcPending[id] = ch`): a Go
map store keeps a single entry per key. -/
def pendingRegister (tbl : List String) (i : String) : List String :=
  if i ∈ tbl then tbl else tbl ++ [i]

/-- Remove an id from the pending table (`delete(c.svcPending, id)`). -/
def pendingRemove (tbl : List String) (i : String) : List String :=
  tbl.filter (fun j => j ≠ i)

/-- The body of `CallService` for one call, as a function of the pending
table it starts from: register the id, send the frame (`sendOk`), await
the response (`resp`; `none` means no `service_response` arrived within
the timeout), and run the deferred delete on every exit path.  Returns
the call's result together with the table after the call exits. -/
def callService (tbl : List String) (service : String) (millis : Nat)
    (sendOk : Bool) (resp : Option String) : Except String String × List String :=
  let i := svcCallId service millis
  let tbl1 := pendingRegister tbl i
  if ¬ sendOk then
    (Except.error "not connected", pendingRemove tbl1 i)
  else
    match resp with
    | some r => (Except.ok r, pendingRemove tbl1 i)
    | none =>
        (Except.error ("service call " ++ service ++ " timed out"),
         pendingRemove tbl1 i)

/-- The two table events a call performs: registration on entry, deletion
(by the `defer`) on exit — the exit is the response arrival or the
timeout. -/
inductive SvcEvent where
  | reg (i : String)
  | del (i : String)
deriving DecidableEq

/-- Effect of one event on the pending table. -/
def svcStep (tbl : List String) : SvcEvent → List String
  | .reg i => pendingRegister tbl i
  | .del i => pendingRemove tbl i

/-- Run a trace of events over the pending table. -/
def svcRun (tbl : List String) (es : List SvcEvent) : List String :=
  es.foldl svcStep tbl

/-- The table trace of one never-answered call: it registers its id and,
when the timeout fires, its deferred delete removes it. -/
def callTrace (i : String) : List SvcEvent := [SvcEvent.reg i, SvcEvent.del i]

/-- `Merge tss es`: `es` is an interleaving of the traces `tss`, each
trace's events kept in order — the concurrent execution of the calls. -/
inductive Merge : List (List SvcEvent) → List SvcEvent → Prop
  | done (tss : List (List SvcEvent)) (h : ∀ t ∈ tss, t = []) : Merge tss []
  | step (pre : List (List SvcEvent)) (e : SvcEvent) (rest : List SvcEvent)
      (post : List (List SvcEvent)) (out : List SvcEvent)
      (h : Merge (pre ++ rest :: post) out) :
      Merge (pre ++ (e :: rest) :: post) (e :: out)

/-! ## Fleet registry (`robot/manager.go`: `AddRobot`, `RemoveRobot`,
`SwitchRobot`, `GetCurrentRobot`; `robot/robot.go`: `NewRobot`)

The registry state is the `id → *Robot` map (an association list, Go map
iteration order taken as list order), the current-selection id
(`""` = none, as in Go) and the next-id counter.  The `Robot` model
keeps the identity and configuration fields `NewRobot` initialises; the
sensor caches and the link are irrelevant to the registry's control
flow and are elided. -/

/-- The identity/configuration fields of `robot.Robot` set by
`NewRobot`. -/
structure Robot where
  id : String
  namespc : String
  name : String
  ip : String
  port : Int
  radius : Rat
  maxHistory : Nat
  linearVelRatio : Rat
  angularVelRatio : Rat
  connected : Bool
deriving DecidableEq

/-- `robot.NewRobot`: fresh robot with the defaults from `robot.go`. -/
def newRobot (id ns name ip : String) (port : Int) : Robot :=
  { id := id, namespc := ns, name := name, ip := ip, port := port
    radius := 3/10, maxHistory := 100
    linearVelRatio := 1, angularVelRatio := 1, connected := false }

/-- The `Manager` registry state. -/
structure ManagerState where
  robots : List (String × Robot)
  currentID : String
  nextID : Nat
deriving DecidableEq

/-- `robot.NewManager`: empty registry, `nextID = 1`, no selection. -/
def newManager : ManagerState := { robots := [], currentID := "", nextID := 1 }

/-- Go map lookup `m.robots[id]` (nil pointer modelled as `none`). -/
def robotsLookup (robots : List (String × Robot)) (id : String) : Option Robot :=
  match robots.find? (fun p => p.1 = id) with
  | some p => some p.2
  | none => none

/-- Go map store `m.robots[id] = r`: overwrite an existing entry,
otherwise append. -/
def robotsStore (robots : List (String × Robot)) (id : String) (r : Robot) :
    List (String × Robot) :=
  if (robots.find? (fun p => p.1 = id)).isSome then
    robots.map (fun p => if p.1 = id then (id, r) else p)
  else robots ++ [(id, r)]

/-- `Manager.AddRobot`: reject a duplicate `(ip, port)` with a conflict
error leaving the state untouched; otherwise allocate the next id,
create the robot, register it, and make it current if no robot was
selected.  (Broadcast-callback wiring carries no registry state and is
not modelled.) -/
def addRobot (m : ManagerState) (ns name ip : String) (port : Int) :
    ManagerState × Except String Robot :=
  if m.robots.any (fun p => p.2.ip = ip ∧ p.2.port = port) then
    (m, Except.error ("robot at " ++ ip ++ ":" ++ toString port ++ " already exists"))
  else
    let id := Nat.repr m.nextID
    let r := newRobot id ns name ip port
    let robots1 := robotsStore m.robots id r
    let current1 := if m.currentID = "" then id else m.currentID
    ({ robots := robots1, currentID := current1, nextID := m.nextID + 1 }, Except.ok r)

/-- `Manager.RemoveRobot`: unknown id is a not-found error leaving the
state untouched; otherwise delete the entry and, if it was the current
selection, select an arbitrary remaining robot (the first in iteration
order) or clear the selection if none remain. -/
def removeRobot (m : ManagerState) (id : String) : ManagerState × Except String Unit :=
  match robotsLookup m.robots id with
  | none => (m, Except.error ("robot " ++ id ++ " not found"))
  | some _ =>
      let robots1 := m.robots.filter (fun p => p.1 ≠ id)
      let current1 :=
        if m.currentID = id then
          match robots1 with
          | [] => ""
          | p :: _ => p.1
        else m.currentID
      ({ robots := robots1, currentID := current1, nextID := m.nextID }, Except.ok ())

/-- `Manager.SwitchRobot`: unknown id is a not-found error; otherwise
update the current selection. -/
def switchRobot (m : ManagerState) (id : String) : ManagerState × Except String Unit :=
  match robotsLookup m.robots id with
  | none => (m, Except.error ("robot " ++ id ++ " not found"))
  | some _ => ({ m with currentID := id }, Except.ok ())

/-- `Manager.GetCurrentRobot`: `nil` when no selection, else the map
lookup of the current id. -/
def getCurrentRobot (m : ManagerState) : Option Robot :=
  if m.currentID = "" then none else robotsLookup m.robots m.currentID

/-- Registry states reachable from the empty registry by any sequence of
`AddRobot` / `RemoveRobot` / `SwitchRobot` calls (successful or not). -/
inductive Reachable : ManagerState → Prop
  | init : Reachable newManager
  | add (m : ManagerState) (ns name ip : String) (port : Int) (h : Reachable m) :
      Reachable (addRobot m ns name ip port).1
  | remove (m : ManagerState) (id : String) (h : Reachable m) :
      Reachable (removeRobot m id).1
  | switch (m : ManagerState) (id : String) (h : Reachable m) :
      Reachable (switchRobot m id).1

/-! ## TF parsing (`rosbridge/client.go`: `parseTF`)

`parseTF` walks the decoded transform list, caching every `map→odom`
transform in `c.globalMapOdom` and, for every `odom→base_footprint`
transform, filling a composite `TFData` whose map→odom half is read
from the cache; the event is emitted after the loop iff at least one
`odom→base_footprint` transform was seen.  The yaw is
`math.Atan2(2(wz+xy), 1-2(y²+z²))`; `Atan2` is passed in as a
parameter. -/

/-- `rosbridge.Vector3`. -/
structure Vec3 where
  x : Rat
  y : Rat
  z : Rat
deriving DecidableEq

/-- `rosbridge.Quaternion`. -/
structure Quat where
  x : Rat
  y : Rat
  z : Rat
  w : Rat
deriving DecidableEq

/-- The `transform` field of a TF entry: translation plus rotation. -/
structure Xform where
  translation : Vec3
  rotation : Quat
deriving DecidableEq

/-- The Go zero value of the cached transform (`TransformStamped{}`):
all translation and rotation components zero, including `w`. -/
def zeroXform : Xform := ⟨⟨0, 0, 0⟩, ⟨0, 0, 0, 0⟩⟩

/-- One decoded entry of the inbound TF message: parent frame, child
frame, transform. -/
structure TFEntry where
  frameId : String
  childFrameId : String
  transform : Xform
deriving DecidableEq

/-- `rosbridge.TFData`: the composite event, map→odom half plus
base-footprint half plus yaw. -/
structure TFDataR where
  mapOdomTx : Rat
  mapOdomTy : Rat
  mapOdomTz : Rat
  mapOdomRx : Rat
  mapOdomRy : Rat
  mapOdomRz : Rat
  mapOdomRw : Rat
  bfpTx : Rat
  bfpTy : Rat
  bfpTz : Rat
  bfpRx : Rat
  bfpRy : Rat
  bfpRz : Rat
  bfpRw : Rat
  bfpYaw : Rat
deriving DecidableEq

/-- Go zero value of `TFData` (`var tfData TFData`). -/
def zeroTFData : TFDataR := ⟨0, 0, 0, 0, 0, 0, 0, 0, 0, 0, 0, 0, 0, 0, 0⟩

/-- The map→odom half of a `TFData` as a transform, for comparison with
the cache. -/
def mapOdomHalf (d : TFDataR) : Xform :=
  ⟨⟨d.mapOdomTx, d.mapOdomTy, d.mapOdomTz⟩,
   ⟨d.mapOdomRx, d.mapOdomRy, d.mapOdomRz, d.mapOdomRw⟩⟩

/-- Write a transform into the map→odom fields of a `TFData`. -/
def setMapOdom (d : TFDataR) (t : Xform) : TFDataR :=
  { d with
    mapOdomTx := t.translation.x, mapOdomTy := t.translation.y
    mapOdomTz := t.translation.z
    mapOdomRx := t.rotation.x, mapOdomRy := t.rotation.y
    mapOdomRz := t.rotation.z, mapOdomRw := t.rotation.w }

/-- Write a transform into the base-footprint fields of a `TFData` and
compute the yaw with the supplied `atan2`. -/
def setBfp (atan2 : Rat → Rat → Rat) (d : TFDataR) (t : Xform) : TFDataR :=
  { d with
    bfpTx := t.translation.x, bfpTy := t.translation.y
    bfpTz := t.translation.z
    bfpRx := t.rotation.x, bfpRy := t.rotation.y
    bfpRz := t.rotation.z, bfpRw := t.rotation.w
    bfpYaw := atan2
      (2 * (t.rotation.w * t.rotation.z + t.rotation.x * t.rotation.y))
      (1 - 2 * (t.rotation.y * t.rotation.y + t.rotation.z * t.rotation.z)) }

/-- The loop of `parseTF` over the transform list, carrying the cache,
the accumulated `tfData` and the `emitTF` flag. -/
def parseTFLoop (atan2 : Rat → Rat → Rat) (cache : Xform) (td : TFDataR)
    (emit : Bool) : List TFEntry → Xform × TFDataR × Bool
  | [] => (cache, td, emit)
  | t :: rest =>
      if t.frameId = "map" ∧ t.childFrameId = "odom" then
        parseTFLoop atan2 t.transform (setMapOdom td t.transform) emit rest
      else if t.frameId = "odom" ∧ t.childFrameId = "base_footprint" then
        parseTFLoop atan2 cache (setBfp atan2 (setMapOdom td cache) t.transform) true rest
      else
        parseTFLoop atan2 cache td emit rest

/-- `Client.parseTF` on a successfully decoded message: returns the new
cached map→odom transform and the emitted event, if any. -/
def parseTF (atan2 : Rat → Rat → Rat) (cached : Xform) (entries : List TFEntry) :
    Xform × Option TFDataR :=
  let r := parseTFLoop atan2 cached zeroTFData false entries
  (r.1, if r.2.2 = true then some r.2.1 else none)

/-! ## Browser outbound pump (`handlers/ws_handler.go`: writer goroutine)

The writer goroutine forwards each hub message to the browser socket in
delivery order, except that a `"map"` message arriving less than 500ms
after the previously written `"map"` message is dropped
(`lastMapSend` is connection-local).  Messages are modelled with their
`time.Now()` arrival timestamps in milliseconds; `lastMapSend` starts at
the Go zero time, before every real instant, modelled as `none`. -/

/-- The outbound pump over a timestamped hub-delivery sequence: returns
the subsequence actually written to the browser socket. -/
def wsPump {α : Type} : Option Nat → List (Nat × BroadcastMsg α) → List (Nat × BroadcastMsg α)
  | _, [] => []
  | lastMapSend, (t, m) :: rest =>
      if m.type = "map" then
        match lastMapSend with
        | some l =>
            if t - l < 500 then wsPump (some l) rest
            else (t, m) :: wsPump (some t) rest
        | none => (t, m) :: wsPump (some t) rest
      else (t, m) :: wsPump lastMapSend rest

/-- Concrete TF message carrying one odom→base_footprint transform, for
the composite-pose witness. -/
def bfpEntryExample : TFEntry := ⟨"odom", "base_footprint", ⟨⟨1, 2, 0⟩, ⟨0, 0, 0, 1⟩⟩⟩

/-! ## Derived definitions used by the statements -/

/-- The registry invariant of §4.3/§3: the selection is empty exactly
when the registry is empty, a non-empty selection refers to a registered
robot, and no registered key is the empty string (keys are decimal
renderings of the id counter). -/
def registryInv (m : ManagerState) : Prop :=
  (m.currentID = "" ↔ m.robots = []) ∧
  (m.currentID ≠ "" → (robotsLookup m.robots m.currentID).isSome) ∧
  (∀ p ∈ m.robots, p.1 ≠ "")

/-- Timestamps of the `"map"`-typed events of a timestamped sequence. -/
def mapEventTimes {α : Type} (evs : List (Nat × BroadcastMsg α)) : List Nat :=
  (evs.filter (fun e => e.2.type = "map")).map Prod.fst

/-- Concrete client state for the `publishCmdVelTick` counterexample:
connected, enabled, topic set; the desired twist differs from the
last-sent twist only in `AngularX`. -/
def tickStateAngularX : CmdVelState :=
  { connected := true, cmdVelEnabled := true
    topicCmdVel := "/r1/diff_controller/cmd_vel_unstamped"
    desiredTwist := { zeroTwist with angularX := 1 }
    lastTwist := zeroTwist }

/-- Concrete client state with an unset command topic but a changed
desired twist. -/
def tickStateNoTopic : CmdVelState :=
  { connected := true, cmdVelEnabled := true
    topicCmdVel := ""
    desiredTwist := { zeroTwist with linearX := 1 }
    lastTwist := zeroTwist }

/-- Correlation id of a call to `/which_maps` started at Unix
millisecond 1700000000000. -/
def svcIdA : String := svcCallId "/which_maps" 1700000000000

/-- Correlation id of a concurrent call to `/which_tasks` started in the
same millisecond. -/
def svcIdB : String := svcCallId "/which_tasks" 1700000000000

/-- The id shared by two concurrent calls to `/which_maps` started in
the same millisecond. -/
def svcIdDup : String := svcCallId "/which_maps" 1700000000000

/-- The registry obtained from the empty one by a single successful
`AddRobot`, for the selection-invariant witness. -/
def regExample : ManagerState :=
  (addRobot newManager "/r1" "alpha" "10.0.0.1" 9090).1

/-- Concrete registry holding one robot at `10.0.0.1:9090`, for the
duplicate-add witness. -/
def dupRegistry : ManagerState :=
  { robots := [("1", newRobot "1" "/r1" "alpha" "10.0.0.1" 9090)]
    currentID := "1", nextID := 2 }

/-- Concrete connected client state with both twists zero, for the
publish-on-change witness. -/
def tickWitnessState : CmdVelState :=
  { connected := true, cmdVelEnabled := true
    topicCmdVel := "/r1/diff_controller/cmd_vel_unstamped"
    desiredTwist := zeroTwist, lastTwist := zeroTwist }

/-- A forward command. -/
def twistV : TwistData := ⟨1, 0, 0, 0, 0, 0⟩

/-- A turn command. -/
def twistW : TwistData := ⟨0, 0, 0, 0, 0, 1⟩

/-- A concrete hub-delivery sequence for the throttle witness: map
events at 0ms, 300ms and 600ms around an odom event at 100ms. -/
def wsEventsExample : List (Nat × BroadcastMsg Nat) :=
  [(0, ⟨"map", "1", 0⟩), (100, ⟨"odom", "1", 1⟩),
   (300, ⟨"map", "1", 2⟩), (600, ⟨"map", "1", 3⟩)]

/-- Two example subscriber queues for the broadcast witness: one with
room, one already at capacity zero (full). -/
def hubQueuesExample : List (SubQueue (BroadcastMsg Nat)) := [⟨100, []⟩, ⟨0, []⟩]

/-- An example broadcast message. -/
def mapMsgExample : BroadcastMsg Nat := ⟨"map", "1", 5⟩

/-! ## Theorems -/

/-! ### C9 — browser map-event throttle -/

/-- Helper: `wsPump` unfolds at a cons with a recorded last-send time. -/
theorem wsPump_cons_some {α : Type} (l t : Nat) (m : BroadcastMsg α)
    (rest : List (Nat × BroadcastMsg α)) :
    wsPump (some l) ((t, m) :: rest) =
      if m.type = "map" then
        (if t - l < 500 then wsPump (some l) rest
         else (t, m) :: wsPump (some t) rest)
      else (t, m) :: wsPump (some l) rest := rfl

/-- Helper: `wsPump` unfolds at a cons before any map send. -/
theorem wsPump_cons_none {α : Type} (t : Nat) (m : BroadcastMsg α)
    (rest : List (Nat × BroadcastMsg α)) :
    wsPump none ((t, m) :: rest) =
      if m.type = "map" then (t, m) :: wsPump (some t) rest
      else (t, m) :: wsPump none rest := rfl

/-- Helper: map-event times of a cons whose head is a map event. -/
theorem mapEventTimes_cons_map {α : Type} (t : Nat) (m : BroadcastMsg α)
    (rest : List (Nat × BroadcastMsg α)) (h : m.type = "map") :
    mapEventTimes ((t, m) :: rest) = t :: mapEventTimes rest := by
  simp [mapEventTimes, h]

/-- Helper: map-event times of a cons whose head is not a map event. -/
theorem mapEventTimes_cons_other {α : Type} (t : Nat) (m : BroadcastMsg α)
    (rest : List (Nat × BroadcastMsg α)) (h : ¬ m.type = "map") :
    mapEventTimes ((t, m) :: rest) = mapEventTimes rest := by
  simp [mapEventTimes, h]

/-- Helper: over a chronological input whose events all arrive at or
after the recorded last map send `l`, the written map events are ≥500ms
apart pairwise and all at least 500ms after `l`. -/
theorem wsPump_map_sep {α : Type} :
    ∀ (evs : List (Nat × BroadcastMsg α)) (l : Nat),
      List.Pairwise (fun a b => a.1 ≤ b.1) evs →
      (∀ e ∈ evs, l ≤ e.1) →
      List.Pairwise (fun a b => a + 500 ≤ b) (mapEventTimes (wsPump (some l) evs)) ∧
      ∀ u ∈ mapEventTimes (wsPump (some l) evs), l + 500 ≤ u := by
  intro evs
  induction evs with
  | nil =>
      intro l _ _
      exact ⟨List.Pairwise.nil, by simp [mapEventTimes, wsPump]⟩
  | cons e rest ih =>
      obtain ⟨t, m⟩ := e
      intro l hpw hl
      rw [List.pairwise_cons] at hpw
      obtain ⟨hhead, htail⟩ := hpw
      have hlt : l ≤ t := hl (t, m) (by simp)
      have hlrest : ∀ u ∈ rest, l ≤ u.1 := fun u hu => hl u (by simp [hu])
      rw [wsPump_cons_some]
      by_cases hmap : m.type = "map"
      · rw [if_pos hmap]
        by_cases hdrop : t - l < 500
        · rw [if_pos hdrop]
          exact ih l htail hlrest
        · rw [if_neg hdrop, mapEventTimes_cons_map _ _ _ hmap]
          obtain ⟨hpw2, hge⟩ := ih t htail (fun u hu => hhead u hu)
          refine ⟨List.pairwise_cons.mpr ⟨hge, hpw2⟩, ?_⟩
          intro u hu
          rw [List.mem_cons] at hu
          rcases hu with rfl | hu
          · omega
          · have := hge u hu
            omega
      · rw [if_neg hmap, mapEventTimes_cons_other _ _ _ hmap]
        exact ih l htail hlrest

/-- Helper: over any chronological input, the written map events are
pairwise at least 500ms apart. -/
theorem wsPump_map_sep_none {α : Type} :
    ∀ (evs : List (Nat × BroadcastMsg α)),
      List.Pairwise (fun a b => a.1 ≤ b.1) evs →
      List.Pairwise (fun a b => a + 500 ≤ b) (mapEventTimes (wsPump none evs)) := by
  intro evs
  induction evs with
  | nil => intro _; exact List.Pairwise.nil
  | cons e rest ih =>
      obtain ⟨t, m⟩ := e
      intro hpw
      rw [List.pairwise_cons] at hpw
      obtain ⟨hhead, htail⟩ := hpw
      rw [wsPump_cons_none]
      by_cases hmap : m.type = "map"
      · rw [if_pos hmap, mapEventTimes_cons_map _ _ _ hmap]
        obtain ⟨hpw2, hge⟩ := wsPump_map_sep rest t htail (fun u hu => hhead u hu)
        exact List.pairwise_cons.mpr ⟨hge, hpw2⟩
      · rw [if_neg hmap, mapEventTimes_cons_other _ _ _ hmap]
        exact ih htail

/-- Helper: filtering the non-map events drops a map-typed head. -/
theorem filter_notMap_cons_map {α : Type} (t : Nat) (m : BroadcastMsg α)
    (xs : List (Nat × BroadcastMsg α)) (h : m.type = "map") :
    ((t, m) :: xs).filter (fun e => ¬ e.2.type = "map") =
      xs.filter (fun e => ¬ e.2.type = "map") := by
  simp [List.filter_cons, h]

/-- Helper: filtering the non-map events keeps a non-map head. -/
theorem filter_notMap_cons_other {α : Type} (t : Nat) (m : BroadcastMsg α)
    (xs : List (Nat × BroadcastMsg α)) (h : ¬ m.type = "map") :
    ((t, m) :: xs).filter (fun e => ¬ e.2.type = "map") =
      (t, m) :: xs.filter (fun e => ¬ e.2.type = "map") := by
  simp [List.filter_cons, h]

/-- Helper: the pump forwards every non-map event, in order, regardless
of the throttle state. -/
theorem wsPump_keeps_others {α : Type} :
    ∀ (evs : List (Nat × BroadcastMsg α)) (last : Option Nat),
      (wsPump last evs).filter (fun e => ¬ e.2.type = "map") =
        evs.filter (fun e => ¬ e.2.type = "map") := by
  intro evs
  induction evs with
  | nil => intro last; rfl
  | cons e rest ih =>
      obtain ⟨t, m⟩ := e
      intro last
      by_cases hmap : m.type = "map"
      · cases last with
        | none =>
            rw [wsPump_cons_none, if_pos hmap,
              filter_notMap_cons_map t m (wsPump (some t) rest) hmap,
              filter_notMap_cons_map t m rest hmap]
            exact ih (some t)
        | some l =>
            rw [wsPump_cons_some, if_pos hmap]
            by_cases hdrop : t - l < 500
            · rw [if_pos hdrop, filter_notMap_cons_map t m rest hmap]
              exact ih (some l)
            · rw [if_neg hdrop,
                filter_notMap_cons_map t m (wsPump (some t) rest) hmap,
                filter_notMap_cons_map t m rest hmap]
              exact ih (some t)
      · cases last with
        | none =>
            rw [wsPump_cons_none, if_neg hmap,
              filter_notMap_cons_other t m (wsPump none rest) hmap,
              filter_notMap_cons_other t m rest hmap, ih none]
        | some l =>
            rw [wsPump_cons_some, if_neg hmap,
              filter_notMap_cons_other t m (wsPump (some l) rest) hmap,
              filter_notMap_cons_other t m rest hmap, ih (some l)]

/-- Helper: the pump's output is a subsequence of its input — nothing
reordered, duplicated or invented. -/
theorem wsPump_sublist {α : Type} :
    ∀ (evs : List (Nat × BroadcastMsg α)) (last : Option Nat),
      List.Sublist (wsPump last evs) evs := by
  intro evs
  induction evs with
  | nil => intro last; exact List.Sublist.refl _
  | cons e rest ih =>
      obtain ⟨t, m⟩ := e
      intro last
      cases last with
      | none =>
          rw [wsPump_cons_none]
          by_cases hmap : m.type = "map"
          · rw [if_pos hmap]
            exact List.Sublist.cons₂ _ (ih (some t))
          · rw [if_neg hmap]
            exact List.Sublist.cons₂ _ (ih none)
      | some l =>
          rw [wsPump_cons_some]
          by_cases hmap : m.type = "map"
          · rw [if_pos hmap]
            by_cases hdrop : t - l < 500
            · rw [if_pos hdrop]
              exact List.Sublist.cons _ (ih (some l))
            · rw [if_neg hdrop]
              exact List.Sublist.cons₂ _ (ih (some t))
          · rw [if_neg hmap]
            exact List.Sublist.cons₂ _ (ih (some l))

/-- Claim C9: for a chronological hub-delivery sequence to one browser
connection, the outbound pump writes a subsequence of it (no
reordering), forwards every non-map event unthrottled and in
hub-delivery order, and writes map events whose timestamps are pairwise
at least 500ms apart — at most one map event in any 500ms window, the
intervening ones dropped for this connection only. -/
theorem ws_map_throttle {α : Type} (evs : List (Nat × BroadcastMsg α))
    (hchron : List.Pairwise (fun a b => a.1 ≤ b.1) evs) :
    List.Sublist (wsPump none evs) evs ∧
    (wsPump none evs).filter (fun e => ¬ e.2.type = "map") =
      evs.filter (fun e => ¬ e.2.type = "map") ∧
    List.Pairwise (fun a b => a + 500 ≤ b)
      (mapEventTimes (wsPump (none : Option Nat) evs)) :=
  ⟨wsPump_sublist evs none, wsPump_keeps_others evs none, wsPump_map_sep_none evs hchron⟩

/-- Witness for `ws_map_throttle` on `wsEventsExample`: the 300ms map
event is dropped, the 0ms and 600ms map events and the 100ms odom event
are written. -/
theorem ws_map_throttle_witness :
    List.Pairwise (fun a b => a.1 ≤ b.1) wsEventsExample ∧
    wsPump none wsEventsExample =
      [(0, ⟨"map", "1", 0⟩), (100, ⟨"odom", "1", 1⟩), (600, ⟨"map", "1", 3⟩)] ∧
    List.Pairwise (fun a b => a + 500 ≤ b)
      (mapEventTimes (wsPump (none : Option Nat) wsEventsExample)) :=
  ⟨by decide, by decide, (ws_map_throttle wsEventsExample (by decide)).2.2⟩

/-! ### C8 — composite pose from cached map→odom transform -/

/-- Helper: along the `parseTF` loop, whenever the emit flag is set, the
accumulated event's map→odom half equals the current cache. -/
theorem parseTFLoop_half_eq_cache (f : Rat → Rat → Rat) :
    ∀ (entries : List TFEntry) (cache : Xform) (td : TFDataR) (emit : Bool),
      (emit = true → mapOdomHalf td = cache) →
      (parseTFLoop f cache td emit entries).2.2 = true →
      mapOdomHalf (parseTFLoop f cache td emit entries).2.1 =
        (parseTFLoop f cache td emit entries).1 := by
  intro entries
  induction entries with
  | nil => intro cache td emit h he; exact h he
  | cons t rest ih =>
      intro cache td emit h
      unfold parseTFLoop
      split
      · exact ih t.transform (setMapOdom td t.transform) emit (fun _ => rfl)
      · split
        · exact ih cache (setBfp f (setMapOdom td cache) t.transform) true (fun _ => rfl)
        · exact ih cache td emit h

/-- Helper: the loop sets the emit flag when the message contains an
odom→base_footprint transform (or it was already set). -/
theorem parseTFLoop_emits (f : Rat → Rat → Rat) :
    ∀ (entries : List TFEntry) (cache : Xform) (td : TFDataR) (emit : Bool),
      ((∃ t ∈ entries, t.frameId = "odom" ∧ t.childFrameId = "base_footprint") ∨
        emit = true) →
      (parseTFLoop f cache td emit entries).2.2 = true := by
  intro entries
  induction entries with
  | nil =>
      intro cache td emit h
      rcases h with ⟨t, ht, _⟩ | h
      · exact absurd ht (List.not_mem_nil t)
      · exact h
  | cons t rest ih =>
      intro cache td emit h
      unfold parseTFLoop
      split
      · next hmo =>
          apply ih
          rcases h with ⟨u, hu, hcond⟩ | h
          · rw [List.mem_cons] at hu
            rcases hu with rfl | hu
            · exact absurd hcond.1 (by rw [hmo.1]; decide)
            · exact Or.inl ⟨u, hu, hcond⟩
          · exact Or.inr h
      · split
        · next hbfp => exact ih cache _ true (Or.inr rfl)
        · next hmo hbfp =>
            apply ih
            rcases h with ⟨u, hu, hcond⟩ | h
            · rw [List.mem_cons] at hu
              rcases hu with rfl | hu
              · exact absurd hcond hbfp
              · exact Or.inl ⟨u, hu, hcond⟩
            · exact Or.inr h

/-- Helper: when the message contains no map→odom transform, the cache
is left untouched by the loop. -/
theorem parseTFLoop_cache_const (f : Rat → Rat → Rat) :
    ∀ (entries : List TFEntry) (cache : Xform) (td : TFDataR) (emit : Bool),
      (∀ t ∈ entries, ¬ (t.frameId = "map" ∧ t.childFrameId = "odom")) →
      (parseTFLoop f cache td emit entries).1 = cache := by
  intro entries
  induction entries with
  | nil => intro cache td emit _; rfl
  | cons t rest ih =>
      intro cache td emit h
      unfold parseTFLoop
      split
      · next hmo => exact absurd hmo (h t (by simp))
      · split
        · exact ih cache _ true (fun u hu => h u (by simp [hu]))
        · exact ih cache td emit (fun u hu => h u (by simp [hu]))

/-- Claim C8: on an inbound TF message containing an
odom→base_footprint transform, a composite pose event is emitted and
its map→odom half equals the cache after the message (the most recently
cached map→odom transform); when the message carries no map→odom
transform, the cache is retained unchanged across the message; and when
no map→odom transform has ever been observed (the cache is the Go zero
value), the event is still emitted with the all-zero map→odom
transform. -/
theorem parseTF_composite_uses_cached (f : Rat → Rat → Rat) (cached : Xform)
    (entries : List TFEntry)
    (hbfp : ∃ t ∈ entries, t.frameId = "odom" ∧ t.childFrameId = "base_footprint") :
    (∃ d, (parseTF f cached entries).2 = some d ∧
        mapOdomHalf d = (parseTF f cached entries).1) ∧
    ((∀ t ∈ entries, ¬ (t.frameId = "map" ∧ t.childFrameId = "odom")) →
        (parseTF f cached entries).1 = cached) ∧
    (cached = zeroXform →
     (∀ t ∈ entries, ¬ (t.frameId = "map" ∧ t.childFrameId = "odom")) →
        ∃ d, (parseTF f cached entries).2 = some d ∧ mapOdomHalf d = zeroXform) := by
  have hemit : (parseTFLoop f cached zeroTFData false entries).2.2 = true :=
    parseTFLoop_emits f entries cached zeroTFData false (Or.inl hbfp)
  have hhalf := parseTFLoop_half_eq_cache f entries cached zeroTFData false
    (fun h => absurd h (by decide)) hemit
  have hev : (parseTF f cached entries).2 =
      some (parseTFLoop f cached zeroTFData false entries).2.1 := by
    show (if (parseTFLoop f cached zeroTFData false entries).2.2 = true
        then some (parseTFLoop f cached zeroTFData false entries).2.1 else none) =
      some (parseTFLoop f cached zeroTFData false entries).2.1
    rw [if_pos hemit]
  have hfst : (parseTF f cached entries).1 =
      (parseTFLoop f cached zeroTFData false entries).1 := rfl
  refine ⟨⟨_, hev, by rw [hfst]; exact hhalf⟩, ?_, ?_⟩
  · intro hnomo
    rw [hfst]
    exact parseTFLoop_cache_const f entries cached zeroTFData false hnomo
  · intro hzero hnomo
    refine ⟨_, hev, ?_⟩
    rw [hhalf, ← hfst, hfst,
      parseTFLoop_cache_const f entries cached zeroTFData false hnomo, hzero]

/-- Witness for `parseTF_composite_uses_cached`: a message with one
odom→base_footprint transform, an all-zero cache and a trivial `atan2`
still emits a composite event with the all-zero map→odom half. -/
theorem parseTF_composite_uses_cached_witness :
    (∃ t ∈ [bfpEntryExample],
        t.frameId = "odom" ∧ t.childFrameId = "base_footprint") ∧
    (∃ d, (parseTF (fun _ _ => 0) zeroXform [bfpEntryExample]).2 = some d ∧
        mapOdomHalf d = (parseTF (fun _ _ => 0) zeroXform [bfpEntryExample]).1) :=
  ⟨⟨bfpEntryExample, by simp, by decide⟩,
   (parseTF_composite_uses_cached (fun _ _ => 0) zeroXform [bfpEntryExample]
      ⟨bfpEntryExample, by simp, by decide⟩).1⟩

/-! ### C10 — occupancy-grid cell decoding -/

/-- Claim C10 counterexample: in a well-formed grid frame whose single
cell decodes to the JSON integer `384`, the cached cell is the int8
truncation `-128`, not `384 - 256 = 128` as the claim states for every
`v > 127`. -/
theorem parseMap_cell_counterexample :
    (parseMap ⟨1, 1, 1/20, 0, 0, [384]⟩).data = [-128] ∧
    (384 : Int) - 256 = 128 ∧
    parseMapCell 384 ≠ 384 - 256 := by
  decide

/-- Claim C10 (amended): every decoded cell `v` is stored as the int8
truncation of `v - 256` (when `v > 127`) or of `v` (otherwise); the
exact values `v - 256` and `v` are stored when they fit in an `int8`,
i.e. for `127 < v ≤ 383` and `-128 ≤ v ≤ 127` respectively; and in all
cases the stored cell lies in `[-128, 127]` and equals the original
value modulo 256. -/
theorem parseMap_cell_signed_byte (g : GridMsg) (k : Nat) (v : Int)
    (h : g.data[k]? = some v) :
    (parseMap g).data[k]? = some (parseMapCell v) ∧
    -128 ≤ parseMapCell v ∧ parseMapCell v ≤ 127 ∧
    parseMapCell v % 256 = v % 256 ∧
    (127 < v → v ≤ 383 → parseMapCell v = v - 256) ∧
    (-128 ≤ v → v ≤ 127 → parseMapCell v = v) := by
  constructor
  · simp [parseMap, List.getElem?_map, h]
  · unfold parseMapCell goInt8
    split
    · exact ⟨by omega, by omega, by omega, fun _ _ => by omega, fun _ _ => by omega⟩
    · exact ⟨by omega, by omega, by omega, fun _ _ => by omega, fun _ _ => by omega⟩

/-- Witness for `parseMap_cell_signed_byte` at the concrete frame
`⟨2, 1, 1/20, 0, 0, [0, 200]⟩`, cell index 1, value 200. -/
theorem parseMap_cell_signed_byte_witness :
    ((⟨2, 1, 1/20, 0, 0, [0, 200]⟩ : GridMsg).data[1]? = some 200) ∧
    ((parseMap ⟨2, 1, 1/20, 0, 0, [0, 200]⟩).data[1]? = some (parseMapCell 200) ∧
     -128 ≤ parseMapCell 200 ∧ parseMapCell 200 ≤ 127 ∧
     parseMapCell 200 % 256 = (200 : Int) % 256 ∧
     (127 < (200 : Int) → (200 : Int) ≤ 383 → parseMapCell 200 = 200 - 256) ∧
     (-128 ≤ (200 : Int) → (200 : Int) ≤ 127 → parseMapCell 200 = 200)) :=
  ⟨by decide, parseMap_cell_signed_byte ⟨2, 1, 1/20, 0, 0, [0, 200]⟩ 1 200 (by decide)⟩

/-! ### C5 — double `Unsubscribe` -/

/-- Claim C5 (code bug): the first `Unsubscribe` of channel 7
deregisters and closes it, but the second `Unsubscribe` of the same
channel is not a no-op — it reaches `close(ch)` on an already-closed
channel, which panics in Go (modelled as `none`). -/
theorem unsubscribe_twice_panics :
    unsubscribe ⟨[7], []⟩ 7 = some ⟨[], [7]⟩ ∧
    (do
      let h1 ← unsubscribe ⟨[7], []⟩ 7
      unsubscribe h1 7) = none := by
  decide

/-! ### C4 — hub broadcast fan-out -/

/-- Claim C4: `Broadcast` delivers the message to each registered queue
independently: the queue at any index `k` of the result is exactly
`trySend` applied to the input queue at `k` — appended when it has free
capacity, unchanged (message dropped) when it is full — so a full queue
at one index never affects delivery at any other index, and the
operation is a total function (never blocks). -/
theorem broadcast_delivers_independently {α : Type} (subs : List (SubQueue α))
    (m : α) (k : Nat) (q : SubQueue α) (h : subs[k]? = some q) :
    (hubBroadcast subs m)[k]? = some (trySend q m) ∧
    (q.buf.length < q.cap → trySend q m = { q with buf := q.buf ++ [m] }) ∧
    (¬ q.buf.length < q.cap → trySend q m = q) := by
  refine ⟨?_, ?_, ?_⟩
  · simp [hubBroadcast, List.getElem?_map, h]
  · intro hlt; simp [trySend, hlt]
  · intro hge; simp [trySend, hge]

/-- Witness for `broadcast_delivers_independently`: two subscribers, the
second completely full (capacity 0); delivery to the first still
happens. -/
theorem broadcast_delivers_independently_witness :
    hubQueuesExample[0]? = some ⟨100, []⟩ ∧
    ((hubBroadcast hubQueuesExample mapMsgExample)[0]? =
        some (trySend ⟨100, []⟩ mapMsgExample) ∧
      (([] : List (BroadcastMsg Nat)).length < 100 →
        trySend ⟨100, []⟩ mapMsgExample = ⟨100, [mapMsgExample]⟩) ∧
      (¬ ([] : List (BroadcastMsg Nat)).length < 100 →
        trySend ⟨100, []⟩ mapMsgExample = ⟨100, []⟩)) :=
  ⟨by simp [hubQueuesExample],
   broadcast_delivers_independently hubQueuesExample mapMsgExample 0 ⟨100, []⟩
     (by simp [hubQueuesExample])⟩

/-! ### C2 — command publish tick -/

/-- Helper: when the link is up, publishing enabled, the topic set, and
the desired twist differs from the last-sent one in a published field,
the tick sends one frame and records the desired twist as last sent. -/
theorem publishTick_sends (c : CmdVelState) (h1 : c.connected = true)
    (h2 : c.cmdVelEnabled = true) (h3 : c.topicCmdVel ≠ "")
    (h4 : ¬ (c.desiredTwist.linearX = c.lastTwist.linearX ∧
             c.desiredTwist.angularZ = c.lastTwist.angularZ ∧
             c.desiredTwist.linearY = c.lastTwist.linearY)) :
    publishCmdVelTick c =
      ({ c with lastTwist := c.desiredTwist },
       some ⟨c.topicCmdVel, c.desiredTwist.linearX, c.desiredTwist.linearY,
             c.desiredTwist.angularZ⟩) := by
  have hcc : (c.connected && c.cmdVelEnabled) = true := by rw [h1, h2]; rfl
  unfold publishCmdVelTick
  rw [if_neg (by simp [hcc]), if_neg h3, if_neg h4]

/-- Helper: when the desired twist agrees with the last-sent one on all
three published fields, the tick sends nothing and changes nothing. -/
theorem publishTick_unchanged (c : CmdVelState)
    (h4 : c.desiredTwist.linearX = c.lastTwist.linearX ∧
          c.desiredTwist.angularZ = c.lastTwist.angularZ ∧
          c.desiredTwist.linearY = c.lastTwist.linearY) :
    publishCmdVelTick c = (c, none) := by
  unfold publishCmdVelTick
  rw [if_pos h4]
  split
  · rfl
  · split <;> rfl

/-- Claim C2 counterexample: with the link connected, publishing
enabled and the topic set, a desired twist that differs from the
last-sent twist only in `AngularX` — a field difference — produces no
publish frame, because the tick compares only the three published
fields; and with the command topic unset, even a `LinearX` change
produces no frame. -/
theorem cmdvel_not_every_field_counterexample :
    (tickStateAngularX.desiredTwist ≠ tickStateAngularX.lastTwist ∧
     publishCmdVelTick tickStateAngularX = (tickStateAngularX, none)) ∧
    (tickStateNoTopic.connected = true ∧ tickStateNoTopic.cmdVelEnabled = true ∧
     tickStateNoTopic.desiredTwist ≠ tickStateNoTopic.lastTwist ∧
     publishCmdVelTick tickStateNoTopic = (tickStateNoTopic, none)) := by
  decide

/-- Claim C2 (amended): on a tick, nothing is sent when publishing is
disabled or the link disconnected (or the command topic unset);
otherwise the desired twist is compared to the last-sent twist by exact
equality of the three published fields (`LinearX`, `LinearY`,
`AngularZ`), a frame is sent iff they differ there, and last-sent is
then updated; hence two identical `SetDesiredCmdVel` calls yield
exactly one frame at the next tick (none at the tick after), and a
subsequently set twist differing in a published field yields exactly
one more. -/
theorem cmdvel_tick_publish_on_change (c : CmdVelState) (v w : TwistData)
    (hconn : c.connected = true) (hen : c.cmdVelEnabled = true)
    (htopic : c.topicCmdVel ≠ "")
    (hdiff : ¬ (v.linearX = c.lastTwist.linearX ∧ v.angularZ = c.lastTwist.angularZ ∧
                v.linearY = c.lastTwist.linearY))
    (hdiff2 : ¬ (w.linearX = v.linearX ∧ w.angularZ = v.angularZ ∧
                 w.linearY = v.linearY)) :
    (∀ d : CmdVelState, d.connected = false ∨ d.cmdVelEnabled = false →
        publishCmdVelTick d = (d, none)) ∧
    (publishCmdVelTick (setDesiredCmdVel (setDesiredCmdVel c v) v)).2 =
      some ⟨c.topicCmdVel, v.linearX, v.linearY, v.angularZ⟩ ∧
    (publishCmdVelTick
        (publishCmdVelTick (setDesiredCmdVel (setDesiredCmdVel c v) v)).1).2 = none ∧
    (publishCmdVelTick (setDesiredCmdVel
        (publishCmdVelTick
          (publishCmdVelTick (setDesiredCmdVel (setDesiredCmdVel c v) v)).1).1 w)).2 =
      some ⟨c.topicCmdVel, w.linearX, w.linearY, w.angularZ⟩ := by
  have hset : setDesiredCmdVel (setDesiredCmdVel c v) v = { c with desiredTwist := v } := rfl
  have h1 : publishCmdVelTick { c with desiredTwist := v } =
      ({ c with desiredTwist := v, lastTwist := v },
       some ⟨c.topicCmdVel, v.linearX, v.linearY, v.angularZ⟩) :=
    publishTick_sends _ hconn hen htopic hdiff
  have h2 : publishCmdVelTick { c with desiredTwist := v, lastTwist := v } =
      ({ c with desiredTwist := v, lastTwist := v }, none) :=
    publishTick_unchanged _ ⟨rfl, rfl, rfl⟩
  have h3 : publishCmdVelTick { c with desiredTwist := w, lastTwist := v } =
      ({ c with desiredTwist := w, lastTwist := w },
       some ⟨c.topicCmdVel, w.linearX, w.linearY, w.angularZ⟩) :=
    publishTick_sends _ hconn hen htopic hdiff2
  refine ⟨?_, ?_, ?_, ?_⟩
  · intro d hd
    rcases hd with h | h <;> simp [publishCmdVelTick, h]
  · rw [hset, h1]
  · rw [hset, h1]
    exact congrArg Prod.snd h2
  · rw [hset, h1]
    have : setDesiredCmdVel { c with desiredTwist := v, lastTwist := v } w =
        { c with desiredTwist := w, lastTwist := v } := rfl
    rw [show (({ c with desiredTwist := v, lastTwist := v },
          (some ⟨c.topicCmdVel, v.linearX, v.linearY, v.angularZ⟩ :
            Option CmdVelFrame)) : CmdVelState × Option CmdVelFrame).1 =
        { c with desiredTwist := v, lastTwist := v } from rfl, h2, this, h3]

/-- Witness for `cmdvel_tick_publish_on_change` at a concrete connected
state and the two concrete commands `twistV`, `twistW`. -/
theorem cmdvel_tick_publish_on_change_witness :
    (tickWitnessState.connected = true ∧ tickWitnessState.cmdVelEnabled = true ∧
     tickWitnessState.topicCmdVel ≠ "") ∧
    (publishCmdVelTick
        (setDesiredCmdVel (setDesiredCmdVel tickWitnessState twistV) twistV)).2 =
      some ⟨"/r1/diff_controller/cmd_vel_unstamped", 1, 0, 0⟩ :=
  ⟨⟨rfl, rfl, by decide⟩,
   (cmdvel_tick_publish_on_change tickWitnessState twistV twistW rfl rfl
      (by decide) (by decide) (by decide)).2.1⟩

/-! ### C1/C3 — pending service-call table -/

/-- Helper: `svcRun` unfolds over a cons. -/
theorem svcRun_cons (tbl : List String) (e : SvcEvent) (es : List SvcEvent) :
    svcRun tbl (e :: es) = svcRun (svcStep tbl e) es := rfl

/-- Helper: running any interleaving of call traces — each a suffix of
register-then-delete — returns the table to its base part, provided
every id still awaiting its delete is absent from the base part and
every entry beyond the base part has its delete still pending. -/
theorem svcMerge_no_leak (tss : List (List SvcEvent)) (es : List SvcEvent)
    (hm : Merge tss es) :
    ∀ (tbl0 extra : List String),
      (∀ t ∈ tss, ∃ i, t = [SvcEvent.reg i, SvcEvent.del i] ∨
          t = [SvcEvent.del i] ∨ t = []) →
      (∀ t ∈ tss, ∀ i, SvcEvent.del i ∈ t → i ∉ tbl0) →
      (∀ j ∈ extra, ∃ t ∈ tss, SvcEvent.del j ∈ t) →
      svcRun (tbl0 ++ extra) es = tbl0 := by
  induction hm with
  | done tss hempty =>
      intro tbl0 extra hshape hclean hextra
      have hex : extra = [] := by
        rw [List.eq_nil_iff_forall_not_mem]
        intro j hj
        obtain ⟨t, ht, hdel⟩ := hextra j hj
        rw [hempty t ht] at hdel
        exact absurd hdel (List.not_mem_nil _)
      rw [hex, List.append_nil]
      rfl
  | step pre e rest post out hsub ih =>
      intro tbl0 extra hshape hclean hextra
      have hmem : (e :: rest) ∈ pre ++ (e :: rest) :: post := by simp
      obtain ⟨i, hi⟩ := hshape _ hmem
      rcases hi with hi | hi | hi
      · -- the stepped trace is [reg i, del i]: the event is the registration
        have he : e = SvcEvent.reg i := by injection hi
        have hrest : rest = [SvcEvent.del i] := by injection hi with h1 h2
        subst he
        rw [svcRun_cons]
        have hdelmem : ∀ t ∈ pre ++ rest :: post, ∀ j, SvcEvent.del j ∈ t → i = j → True :=
          fun _ _ _ _ _ => trivial
        have hshape1 : ∀ t ∈ pre ++ rest :: post, ∃ k,
            t = [SvcEvent.reg k, SvcEvent.del k] ∨ t = [SvcEvent.del k] ∨ t = [] := by
          intro t ht
          rw [List.mem_append, List.mem_cons] at ht
          rcases ht with ht | ht | ht
          · exact hshape t (by simp [ht])
          · exact ⟨i, Or.inr (Or.inl (ht.trans hrest))⟩
          · exact hshape t (by simp [ht])
        have hclean1 : ∀ t ∈ pre ++ rest :: post, ∀ j, SvcEvent.del j ∈ t → j ∉ tbl0 := by
          intro t ht j hdel
          rw [List.mem_append, List.mem_cons] at ht
          rcases ht with ht | ht | ht
          · exact hclean t (by simp [ht]) j hdel
          · refine hclean (SvcEvent.reg i :: rest) (by simp) j ?_
            rw [List.mem_cons]
            exact Or.inr (ht ▸ hdel)
          · exact hclean t (by simp [ht]) j hdel
        by_cases hmemi : i ∈ tbl0 ++ extra
        · have hstep : svcStep (tbl0 ++ extra) (SvcEvent.reg i) = tbl0 ++ extra := by
            simp [svcStep, pendingRegister, hmemi]
          rw [hstep]
          refine ih tbl0 extra hshape1 hclean1 ?_
          intro j hj
          obtain ⟨t, ht, hdel⟩ := hextra j hj
          rw [List.mem_append, List.mem_cons] at ht
          rcases ht with ht | ht | ht
          · exact ⟨t, by simp [ht], hdel⟩
          · refine ⟨rest, by simp, ?_⟩
            rw [ht] at hdel
            rw [List.mem_cons] at hdel
            rcases hdel with hdel | hdel
            · exact absurd hdel (by simp)
            · exact hrest ▸ hdel
          · exact ⟨t, by simp [ht], hdel⟩
        · have hstep : svcStep (tbl0 ++ extra) (SvcEvent.reg i) = tbl0 ++ (extra ++ [i]) := by
            simp [svcStep, pendingRegister, hmemi, List.append_assoc]
          rw [hstep]
          refine ih tbl0 (extra ++ [i]) hshape1 hclean1 ?_
          intro j hj
          rw [List.mem_append] at hj
          rcases hj with hj | hj
          · obtain ⟨t, ht, hdel⟩ := hextra j hj
            rw [List.mem_append, List.mem_cons] at ht
            rcases ht with ht | ht | ht
            · exact ⟨t, by simp [ht], hdel⟩
            · refine ⟨rest, by simp, ?_⟩
              rw [ht] at hdel
              rw [List.mem_cons] at hdel
              rcases hdel with hdel | hdel
              · exact absurd hdel (by simp)
              · exact hrest ▸ hdel
            · exact ⟨t, by simp [ht], hdel⟩
          · rw [List.mem_singleton] at hj
            subst hj
            exact ⟨rest, by simp, by rw [hrest]; simp⟩
      · -- the stepped trace is [del i]: the event is the deferred delete
        have he : e = SvcEvent.del i := by injection hi
        have hrest : rest = [] := by injection hi with h1 h2
        subst he hrest
        rw [svcRun_cons]
        have hnotin : i ∉ tbl0 :=
          hclean (SvcEvent.del i :: []) (by simp) i (by simp)
        have hstep : svcStep (tbl0 ++ extra) (SvcEvent.del i) =
            tbl0 ++ extra.filter (fun j => j ≠ i) := by
          show pendingRemove (tbl0 ++ extra) i = tbl0 ++ extra.filter (fun j => j ≠ i)
          unfold pendingRemove
          rw [List.filter_append]
          congr 1
          rw [List.filter_eq_self]
          intro a ha
          simp only [decide_eq_true_eq]
          intro haa
          exact hnotin (haa ▸ ha)
        rw [hstep]
        refine ih tbl0 (extra.filter (fun j => j ≠ i)) ?_ ?_ ?_
        · intro t ht
          rw [List.mem_append, List.mem_cons] at ht
          rcases ht with ht | ht | ht
          · exact hshape t (by simp [ht])
          · exact ⟨i, Or.inr (Or.inr ht)⟩
          · exact hshape t (by simp [ht])
        · intro t ht j hdel
          rw [List.mem_append, List.mem_cons] at ht
          rcases ht with ht | ht | ht
          · exact hclean t (by simp [ht]) j hdel
          · rw [ht] at hdel
            exact absurd hdel (List.not_mem_nil _)
          · exact hclean t (by simp [ht]) j hdel
        · intro j hj
          rw [List.mem_filter] at hj
          obtain ⟨hj, hne⟩ := hj
          simp only [decide_eq_true_eq] at hne
          obtain ⟨t, ht, hdel⟩ := hextra j hj
          rw [List.mem_append, List.mem_cons] at ht
          rcases ht with ht | ht | ht
          · exact ⟨t, by simp [ht], hdel⟩
          · rw [ht] at hdel
            rw [List.mem_singleton] at hdel
            exact absurd (by injection hdel) hne
          · exact ⟨t, by simp [ht], hdel⟩
      · exact absurd hi (List.cons_ne_nil e rest)

/-- Claim C1: a `CallService` invocation that receives no
`service_response` within its timeout returns the timeout error, and
for any number of concurrent never-answered calls — any interleaving of
their register/timeout-delete trace pairs, over a table not already
holding their ids — the pending-call table after all timeouts have
elapsed equals the table before the calls: no entry is leaked. -/
theorem callservice_timeout_no_leak (ids : List String) (es : List SvcEvent)
    (tbl0 : List String) (hm : Merge (ids.map callTrace) es)
    (hfresh : ∀ i ∈ ids, i ∉ tbl0) :
    (∀ (tbl : List String) (service : String) (millis : Nat),
        (callService tbl service millis true none).1 =
          Except.error ("service call " ++ service ++ " timed out")) ∧
    svcRun tbl0 es = tbl0 := by
  constructor
  · intro tbl service millis
    rfl
  · have hrun := svcMerge_no_leak _ _ hm tbl0 []
    rw [List.append_nil] at hrun
    apply hrun
    · intro t ht
      obtain ⟨i, hi, rfl⟩ := List.mem_map.mp ht
      exact ⟨i, Or.inl rfl⟩
    · intro t ht i hdel
      obtain ⟨j, hj, rfl⟩ := List.mem_map.mp ht
      have : i = j := by
        simp only [callTrace, List.mem_cons, List.mem_singleton] at hdel
        rcases hdel with h | h | h
        · exact absurd h (by simp)
        · injection h
        · exact absurd h (by simp)
      exact this ▸ hfresh j hj
    · intro j hj
      exact absurd hj (List.not_mem_nil _)

/-- Witness for `callservice_timeout_no_leak`: two concurrent
never-answered calls (`/which_maps` and `/which_tasks` in the same
millisecond), interleaved as reg-A, reg-B, timeout-A, timeout-B, run
over the empty table. -/
theorem callservice_timeout_no_leak_witness :
    (∀ i ∈ [svcIdA, svcIdB], i ∉ ([] : List String)) ∧
    ((∀ (tbl : List String) (service : String) (millis : Nat),
        (callService tbl service millis true none).1 =
          Except.error ("service call " ++ service ++ " timed out")) ∧
     svcRun [] [SvcEvent.reg svcIdA, SvcEvent.reg svcIdB,
                SvcEvent.del svcIdA, SvcEvent.del svcIdB] = []) := by
  have h0 : Merge [[], []] [] := Merge.done _ (by simp)
  have h1 : Merge [[], [SvcEvent.del svcIdB]] [SvcEvent.del svcIdB] :=
    Merge.step [[]] (SvcEvent.del svcIdB) [] [] [] h0
  have h2 : Merge [[SvcEvent.del svcIdA], [SvcEvent.del svcIdB]]
      [SvcEvent.del svcIdA, SvcEvent.del svcIdB] :=
    Merge.step [] (SvcEvent.del svcIdA) [] [[SvcEvent.del svcIdB]]
      [SvcEvent.del svcIdB] h1
  have h3 : Merge [[SvcEvent.del svcIdA], [SvcEvent.reg svcIdB, SvcEvent.del svcIdB]]
      [SvcEvent.reg svcIdB, SvcEvent.del svcIdA, SvcEvent.del svcIdB] :=
    Merge.step [[SvcEvent.del svcIdA]] (SvcEvent.reg svcIdB) [SvcEvent.del svcIdB] []
      [SvcEvent.del svcIdA, SvcEvent.del svcIdB] h2
  have h4 : Merge [[SvcEvent.reg svcIdA, SvcEvent.del svcIdA],
                   [SvcEvent.reg svcIdB, SvcEvent.del svcIdB]]
      [SvcEvent.reg svcIdA, SvcEvent.reg svcIdB,
       SvcEvent.del svcIdA, SvcEvent.del svcIdB] :=
    Merge.step [] (SvcEvent.reg svcIdA) [SvcEvent.del svcIdA]
      [[SvcEvent.reg svcIdB, SvcEvent.del svcIdB]]
      [SvcEvent.reg svcIdB, SvcEvent.del svcIdA, SvcEvent.del svcIdB] h3
  exact ⟨by simp, callservice_timeout_no_leak [svcIdA, svcIdB] _ [] h4 (by simp)⟩

/-- Claim C3 counterexample: two concurrent `CallService` invocations of
the same service (`/which_maps`) started in the same Unix millisecond
build the same correlation id — not distinct ids as claimed: after both
registrations the pending table holds one entry, not two, and the first
call's deferred delete removes that entry while the second call is
still in flight (its own delete has not yet run), so the second call's
entry does not survive until its own response or timeout. -/
theorem svc_correlation_id_collision :
    svcIdDup = svcCallId "/which_maps" 1700000000000 ∧
    svcRun [] [SvcEvent.reg svcIdDup, SvcEvent.reg svcIdDup] = [svcIdDup] ∧
    svcRun [] [SvcEvent.reg svcIdDup, SvcEvent.reg svcIdDup, SvcEvent.del svcIdDup] = [] := by
  refine ⟨rfl, ?_, ?_⟩ <;> decide

/-- Claim C3 (amended): `CallService` registers its response slot under
the id `svc_<service>_<startMillis>`, which is shared — not distinct —
when another in-flight call to the same service started in the same
millisecond; whenever a call's id differs from another call's id, its
entry is created by its own registration, is unaffected by the other
call's registration and removal, and is removed exactly once, by its
own exit (response arrival or timeout). -/
theorem pending_entry_exactly_once (tbl : List String) (i j : String) (hne : i ≠ j) :
    i ∈ pendingRegister tbl i ∧
    i ∉ pendingRemove tbl i ∧
    (i ∈ pendingRegister tbl j ↔ i ∈ tbl) ∧
    (i ∈ pendingRemove tbl j ↔ i ∈ tbl) := by
  refine ⟨?_, ?_, ?_, ?_⟩
  · unfold pendingRegister
    split
    · assumption
    · simp
  · simp [pendingRemove]
  · unfold pendingRegister
    split
    · exact Iff.rfl
    · simp [hne]
  · simp [pendingRemove, hne]

/-- Witness for `pending_entry_exactly_once`: two calls to
`/which_maps` one millisecond apart have distinct ids; the lifecycle
facts hold for the first id over the table holding the second. -/
theorem pending_entry_exactly_once_witness :
    svcCallId "/which_maps" 1700000000000 ≠ svcCallId "/which_maps" 1700000000001 ∧
    (svcCallId "/which_maps" 1700000000000 ∈
        pendingRegister [svcCallId "/which_maps" 1700000000001]
          (svcCallId "/which_maps" 1700000000000) ∧
     svcCallId "/which_maps" 1700000000000 ∉
        pendingRemove [svcCallId "/which_maps" 1700000000001]
          (svcCallId "/which_maps" 1700000000000) ∧
     (svcCallId "/which_maps" 1700000000000 ∈
        pendingRegister [svcCallId "/which_maps" 1700000000001]
          (svcCallId "/which_maps" 1700000000001) ↔
      svcCallId "/which_maps" 1700000000000 ∈ [svcCallId "/which_maps" 1700000000001]) ∧
     (svcCallId "/which_maps" 1700000000000 ∈
        pendingRemove [svcCallId "/which_maps" 1700000000001]
          (svcCallId "/which_maps" 1700000000001) ↔
      svcCallId "/which_maps" 1700000000000 ∈ [svcCallId "/which_maps" 1700000000001])) :=
  ⟨by decide,
   pending_entry_exactly_once [svcCallId "/which_maps" 1700000000001]
     (svcCallId "/which_maps" 1700000000000)
     (svcCallId "/which_maps" 1700000000001) (by decide)⟩

/-! ### C6 — duplicate `AddRobot` -/

/-- Claim C6: when the registry already holds a robot with the given
host and port, `AddRobot` returns the conflict error and leaves the
whole registry state — robot map, current selection and next-id
counter — unchanged. -/
theorem addRobot_duplicate_conflict (m : ManagerState) (ns name ip : String)
    (port : Int) (p : String × Robot) (hp : p ∈ m.robots)
    (hip : p.2.ip = ip) (hport : p.2.port = port) :
    (addRobot m ns name ip port).1 = m ∧
    (addRobot m ns name ip port).2 =
      Except.error ("robot at " ++ ip ++ ":" ++ toString port ++ " already exists") := by
  have hany : m.robots.any (fun q => decide (q.2.ip = ip ∧ q.2.port = port)) = true := by
    rw [List.any_eq_true]
    exact ⟨p, hp, by simp [hip, hport]⟩
  have heq : addRobot m ns name ip port =
      (m, Except.error ("robot at " ++ ip ++ ":" ++ toString port ++ " already exists")) := by
    unfold addRobot
    split
    · rfl
    · next hneg => exact absurd hany hneg
  exact ⟨by rw [heq], by rw [heq]⟩

/-- Witness for `addRobot_duplicate_conflict`: adding a second robot at
`10.0.0.1:9090` to `dupRegistry` fails and changes nothing. -/
theorem addRobot_duplicate_conflict_witness :
    (("1", newRobot "1" "/r1" "alpha" "10.0.0.1" 9090) ∈ dupRegistry.robots) ∧
    (addRobot dupRegistry "/r2" "beta" "10.0.0.1" 9090).1 = dupRegistry ∧
    (addRobot dupRegistry "/r2" "beta" "10.0.0.1" 9090).2 =
      Except.error ("robot at " ++ "10.0.0.1" ++ ":" ++ toString (9090 : Int) ++ " already exists") :=
  ⟨by simp [dupRegistry],
   (addRobot_duplicate_conflict dupRegistry "/r2" "beta" "10.0.0.1" 9090
      ("1", newRobot "1" "/r1" "alpha" "10.0.0.1" 9090) (by simp [dupRegistry]) rfl rfl).1,
   (addRobot_duplicate_conflict dupRegistry "/r2" "beta" "10.0.0.1" 9090
      ("1", newRobot "1" "/r1" "alpha" "10.0.0.1" 9090) (by simp [dupRegistry]) rfl rfl).2⟩

/-! ### C7 — removal and selection invariant -/

/-- Helper: `Nat.toDigitsCore` never empties a nonempty accumulator. -/
theorem toDigitsCore_ne_nil (b : Nat) :
    ∀ (f n : Nat) (ds : List Char), ds ≠ [] → Nat.toDigitsCore b f n ds ≠ [] := by
  intro f
  induction f with
  | zero => intro n ds h; simpa [Nat.toDigitsCore] using h
  | succ f ih =>
      intro n ds h
      simp only [Nat.toDigitsCore]
      split
      · simp
      · exact ih _ _ (by simp)

/-- Helper: the digit list of a natural number is nonempty. -/
theorem toDigits_ne_nil (b n : Nat) : Nat.toDigits b n ≠ [] := by
  unfold Nat.toDigits
  simp only [Nat.toDigitsCore]
  split
  · simp
  · exact toDigitsCore_ne_nil b _ _ _ (by simp)

/-- Helper: a registry id (decimal rendering of the counter) is never
the empty string. -/
theorem natRepr_ne_empty (n : Nat) : Nat.repr n ≠ "" := by
  unfold Nat.repr
  intro h
  have h2 : (Nat.toDigits 10 n).asString.data = "".data := by rw [h]
  simp only [List.asString] at h2
  exact toDigits_ne_nil 10 n h2

/-- Helper: lookup at a cons cell. -/
theorem robotsLookup_cons (k : String) (v : Robot) (rest : List (String × Robot))
    (id : String) :
    robotsLookup ((k, v) :: rest) id = if k = id then some v else robotsLookup rest id := by
  unfold robotsLookup
  by_cases hk : k = id
  · rw [List.find?_cons_of_pos _ (by simp [hk]), if_pos hk]
  · rw [List.find?_cons_of_neg _ (by simp [hk]), if_neg hk]

/-- Helper: a lookup succeeds exactly when some entry carries the key. -/
theorem robotsLookup_isSome_iff :
    ∀ (robots : List (String × Robot)) (id : String),
      (robotsLookup robots id).isSome ↔ ∃ p ∈ robots, p.1 = id := by
  intro robots id
  induction robots with
  | nil => simp [robotsLookup, List.find?]
  | cons p rest ih =>
      obtain ⟨k, v⟩ := p
      rw [robotsLookup_cons]
      by_cases hk : k = id
      · rw [if_pos hk]
        exact iff_of_true rfl ⟨(k, v), by simp, hk⟩
      · rw [if_neg hk, ih]
        constructor
        · rintro ⟨q, hq, hkey⟩
          exact ⟨q, by simp [hq], hkey⟩
        · rintro ⟨q, hq, hkey⟩
          rw [List.mem_cons] at hq
          rcases hq with rfl | hq
          · exact absurd hkey hk
          · exact ⟨q, hq, hkey⟩

/-- Helper: a store always leaves an entry carrying the stored key. -/
theorem robotsStore_mem_self (robots : List (String × Robot)) (id : String) (r : Robot) :
    ∃ q ∈ robotsStore robots id r, q.1 = id := by
  unfold robotsStore
  split
  · next hfind =>
      rw [List.find?_isSome] at hfind
      obtain ⟨p, hp, hpred⟩ := hfind
      simp only [decide_eq_true_eq] at hpred
      refine ⟨(id, r), List.mem_map.mpr ⟨p, hp, ?_⟩, rfl⟩
      rw [if_pos hpred]
  · exact ⟨(id, r), by simp, rfl⟩

/-- Helper: a store preserves every key already present. -/
theorem robotsStore_mem_keys (robots : List (String × Robot)) (id : String) (r : Robot)
    (cur : String) (h : ∃ p ∈ robots, p.1 = cur) :
    ∃ q ∈ robotsStore robots id r, q.1 = cur := by
  obtain ⟨p, hp, hkey⟩ := h
  unfold robotsStore
  split
  · by_cases hpid : p.1 = id
    · refine ⟨(id, r), List.mem_map.mpr ⟨p, hp, ?_⟩, by rw [← hkey, hpid]⟩
      rw [if_pos hpid]
    · refine ⟨p, List.mem_map.mpr ⟨p, hp, ?_⟩, hkey⟩
      rw [if_neg hpid]
  · exact ⟨p, by simp [hp], hkey⟩

/-- Helper: a store of a non-empty key keeps all keys non-empty. -/
theorem robotsStore_keys_ne (robots : List (String × Robot)) (id : String) (r : Robot)
    (h : ∀ p ∈ robots, p.1 ≠ "") (hid : id ≠ "") :
    ∀ q ∈ robotsStore robots id r, q.1 ≠ "" := by
  intro q hq
  unfold robotsStore at hq
  split at hq
  · obtain ⟨p, hp, hfp⟩ := List.mem_map.mp hq
    by_cases hpid : p.1 = id
    · rw [if_pos hpid] at hfp
      rw [← hfp]
      exact hid
    · rw [if_neg hpid] at hfp
      rw [← hfp]
      exact h p hp
  · rw [List.mem_append] at hq
    rcases hq with hq | hq
    · exact h q hq
    · rw [List.mem_singleton] at hq
      rw [hq]
      exact hid

/-- Helper: every state reachable by Add/Remove/Switch from the empty
registry satisfies the registry invariant. -/
theorem reachable_inv : ∀ (m : ManagerState), Reachable m → registryInv m := by
  intro m h
  induction h with
  | init =>
      refine ⟨by simp [newManager], fun hc => absurd rfl hc, ?_⟩
      intro p hp
      exact absurd hp (List.not_mem_nil p)
  | add m ns name ip port hr ih =>
      obtain ⟨ih1, ih2, ih3⟩ := ih
      unfold addRobot
      split
      · exact ⟨ih1, ih2, ih3⟩
      · dsimp only
        have hself := robotsStore_mem_self m.robots (Nat.repr m.nextID)
          (newRobot (Nat.repr m.nextID) ns name ip port)
        obtain ⟨q0, hq0, hq0key⟩ := hself
        have hne : robotsStore m.robots (Nat.repr m.nextID)
            (newRobot (Nat.repr m.nextID) ns name ip port) ≠ [] :=
          List.ne_nil_of_mem hq0
        refine ⟨?_, ?_, ?_⟩
        · refine iff_of_false ?_ hne
          by_cases hcur : m.currentID = ""
          · rw [if_pos hcur]
            exact natRepr_ne_empty m.nextID
          · rw [if_neg hcur]
            exact hcur
        · intro _
          rw [robotsLookup_isSome_iff]
          by_cases hcur : m.currentID = ""
          · rw [if_pos hcur]
            exact ⟨q0, hq0, hq0key⟩
          · rw [if_neg hcur]
            refine robotsStore_mem_keys _ _ _ _ ?_
            rw [← robotsLookup_isSome_iff]
            exact ih2 hcur
        · exact robotsStore_keys_ne _ _ _ ih3 (natRepr_ne_empty m.nextID)
  | remove m id hr ih =>
      obtain ⟨ih1, ih2, ih3⟩ := ih
      unfold removeRobot
      cases hcase : robotsLookup m.robots id with
      | none => exact ⟨ih1, ih2, ih3⟩
      | some r =>
          dsimp only
          have hfilter_keys : ∀ q ∈ m.robots.filter (fun p => p.1 ≠ id), q.1 ≠ "" := by
            intro q hq
            rw [List.mem_filter] at hq
            exact ih3 q hq.1
          by_cases hcur : m.currentID = id
          · rw [if_pos hcur]
            cases hrob : m.robots.filter (fun p => p.1 ≠ id) with
            | nil =>
                refine ⟨iff_of_true rfl rfl, fun hc => absurd rfl hc, ?_⟩
                intro p hp
                exact absurd hp (List.not_mem_nil p)
            | cons p rest =>
                have hpmem : p ∈ m.robots.filter (fun q => q.1 ≠ id) := by
                  rw [hrob]
                  simp
                have hpkey : p.1 ≠ "" := by
                  rw [List.mem_filter] at hpmem
                  exact ih3 p hpmem.1
                rw [hrob] at hfilter_keys
                refine ⟨iff_of_false hpkey (by simp), ?_, hfilter_keys⟩
                intro _
                rw [robotsLookup_isSome_iff]
                exact ⟨p, by simp, rfl⟩
          · rw [if_neg hcur]
            have hcne : m.currentID ≠ "" := by
              intro hc
              have : m.robots = [] := ih1.mp hc
              rw [this] at hcase
              exact absurd hcase (by simp [robotsLookup, List.find?])
            have hmem : ∃ p ∈ m.robots, p.1 = m.currentID := by
              rw [← robotsLookup_isSome_iff]
              exact ih2 hcne
            obtain ⟨p, hp, hkey⟩ := hmem
            have hpfil : p ∈ m.robots.filter (fun q => q.1 ≠ id) := by
              rw [List.mem_filter]
              refine ⟨hp, ?_⟩
              simp only [decide_eq_true_eq]
              rw [hkey]
              exact hcur
            refine ⟨iff_of_false hcne (List.ne_nil_of_mem hpfil), ?_, hfilter_keys⟩
            intro _
            rw [robotsLookup_isSome_iff]
            exact ⟨p, hpfil, hkey⟩
  | switch m id hr ih =>
      obtain ⟨ih1, ih2, ih3⟩ := ih
      unfold switchRobot
      cases hcase : robotsLookup m.robots id with
      | none => exact ⟨ih1, ih2, ih3⟩
      | some r =>
          dsimp only
          have hmem : ∃ p ∈ m.robots, p.1 = id := by
            rw [← robotsLookup_isSome_iff, hcase]
            rfl
          obtain ⟨p, hp, hkey⟩ := hmem
          have hid : id ≠ "" := hkey ▸ ih3 p hp
          refine ⟨iff_of_false hid (List.ne_nil_of_mem hp), ?_, ih3⟩
          intro _
          rw [robotsLookup_isSome_iff]
          exact ⟨p, hp, hkey⟩

/-- Claim C7: in every state reachable from the empty registry by
`AddRobot`/`RemoveRobot`/`SwitchRobot`: `RemoveRobot` of an unknown id
returns the not-found error and changes nothing; after any
`RemoveRobot`, the selection is empty exactly when the registry became
empty, and otherwise the (reassigned) selection refers to a registered
robot; `GetCurrentRobot` is empty iff the registry is empty; and any
non-empty selection refers to a registered robot. -/
theorem removeRobot_selection_invariant (m : ManagerState) (h : Reachable m) :
    (∀ id, robotsLookup m.robots id = none →
        removeRobot m id = (m, Except.error ("robot " ++ id ++ " not found"))) ∧
    (∀ id, ((removeRobot m id).1.robots = [] → (removeRobot m id).1.currentID = "") ∧
        ((removeRobot m id).1.robots ≠ [] →
          (removeRobot m id).1.currentID ≠ "" ∧
          (robotsLookup (removeRobot m id).1.robots
              (removeRobot m id).1.currentID).isSome)) ∧
    (getCurrentRobot m = none ↔ m.robots = []) ∧
    (m.currentID ≠ "" → (robotsLookup m.robots m.currentID).isSome) := by
  obtain ⟨h1, h2, h3⟩ := reachable_inv m h
  refine ⟨?_, ?_, ?_, h2⟩
  · intro id hid
    unfold removeRobot
    rw [hid]
  · intro id
    obtain ⟨g1, g2, _⟩ := reachable_inv _ (Reachable.remove m id h)
    refine ⟨fun hnil => g1.mpr hnil, fun hne => ?_⟩
    have hc : (removeRobot m id).1.currentID ≠ "" := fun hcur => hne (g1.mp hcur)
    exact ⟨hc, g2 hc⟩
  · unfold getCurrentRobot
    by_cases hcur : m.currentID = ""
    · rw [if_pos hcur]
      exact iff_of_true rfl (h1.mp hcur)
    · rw [if_neg hcur]
      have hsome := h2 hcur
      constructor
      · intro hnone
        rw [hnone] at hsome
        exact absurd hsome (by simp)
      · intro hnil
        exact absurd (h1.mpr hnil) hcur

/-- Witness for `removeRobot_selection_invariant` on the registry with
one robot added to the empty registry. -/
theorem removeRobot_selection_invariant_witness :
    (getCurrentRobot regExample = none ↔ regExample.robots = []) ∧
    (regExample.currentID ≠ "" →
      (robotsLookup regExample.robots regExample.currentID).isSome) :=
  ⟨(removeRobot_selection_invariant regExample
      (Reachable.add newManager "/r1" "alpha" "10.0.0.1" 9090 Reachable.init)).2.2.1,
   (removeRobot_selection_invariant regExample
      (Reachable.add newManager "/r1" "alpha" "10.0.0.1" 9090 Reachable.init)).2.2.2⟩

end RomApp
